import Mathlib

/-!
Verification of the pomodoro interval engine (`pomodoro/interval.go`).

Shallow embedding conventions:

* `time.Duration` is a signed 64-bit count of nanoseconds in Go; we model
  durations as `Int` nanoseconds.  No behaviour modelled here performs
  arithmetic anywhere near the int64 boundary (ticks add one second at a
  time and realizable runs are bounded by the planned duration), so no
  wrap-around modular reduction is needed.
* The `Repository` interface is external to the engine.  For `nextCategory`
  the results of the two calls it makes (`Last()` and `Breaks(3)`) are taken
  as inputs, exactly the values the repository hands back.  For `tick` the
  repository is a `Store` holding the single interval addressed by `ByID(id)`
  together with a schedule of injected storage failures, threaded through
  the loop in the order the Go code performs its storage operations.
* Go's multiple-return `(value, error)` idiom is modelled as a pair with an
  `Option GoError` component; a `nil` error is `none`.
* The `select` loop of `tick` is driven by three event sources (the 1-second
  ticker, the one-shot expiry timer, the cancellation context).  We model an
  execution of the loop as the list of events serviced, in order.  Timing
  determines which lists are realizable: the ticker is created before the
  expiry timer, so at a shared deadline instant the ticker's event becomes
  ready strictly earlier; in particular an uninterrupted run with a whole
  number `D` of remaining seconds services `D` ticker events and then the
  expiry event.
-/

namespace Pomodoro

/-- Go category constant `CategoryPomodoro`. -/
def CategoryPomodoro : String := "Pomodoro"

/-- Go category constant `CategoryShortBreak`. -/
def CategoryShortBreak : String := "ShortBreak"

/-- Go category constant `CategoryLongBreak`. -/
def CategoryLongBreak : String := "LongBreak"

/-- Go state constant `StateNotStarted` (iota = 0). -/
def StateNotStarted : Int := 0

/-- Go state constant `StateDone` (iota = 1). -/
def StateDone : Int := 1

/-- Go state constant `StateRunning` (iota = 2). -/
def StateRunning : Int := 2

/-- Go state constant `StatePaused` (iota = 3). -/
def StatePaused : Int := 3

/-- Go state constant `StateCancelled` (iota = 4). -/
def StateCancelled : Int := 4

/-- `time.Second` in nanoseconds. -/
def second : Int := 1000000000

/-- `time.Minute` in nanoseconds. -/
def minute : Int := 60 * second

/-- The package's error values (`ErrNoIntervals`, ...), plus a constructor for
arbitrary other errors a repository implementation may produce. -/
inductive GoError where
  | errNoIntervals
  | errIntervalNotRunning
  | errIntervalCompleted
  | errInvalidState
  | errInvalidID
  | custom (msg : String)
deriving DecidableEq, Repr

/-- The `Interval` struct.  `StartTime` is an opaque wall-clock stamp. -/
structure Interval where
  ID : Int := 0
  StartTime : Int := 0
  PlannedDuration : Int := 0
  ActualDuration : Int := 0
  Category : String := ""
  State : Int := 0
deriving DecidableEq, Repr

/-- The `IntervalConfig` struct.  The `repo` field is the external repository
reference; it carries no data relevant to the configuration itself and is
modelled separately (see `Store`), so only the three durations appear here. -/
structure IntervalConfig where
  PomodoroDuration : Int
  ShortBreakDuration : Int
  LongBreakDuration : Int
deriving DecidableEq, Repr

/-- `NewConfig`: builds an `IntervalConfig` with defaults 25 min / 5 min /
15 min, each overridden by the corresponding argument exactly when that
argument is strictly positive (`if pomodoro > 0 { ... }` etc.). -/
def NewConfig (pomodoro shortBreak longBreak : Int) : IntervalConfig :=
  let config : IntervalConfig :=
    { PomodoroDuration := 25 * minute
      ShortBreakDuration := 5 * minute
      LongBreakDuration := 15 * minute }
  let config := if pomodoro > 0 then { config with PomodoroDuration := pomodoro } else config
  let config := if shortBreak > 0 then { config with ShortBreakDuration := shortBreak } else config
  let config := if longBreak > 0 then { config with LongBreakDuration := longBreak } else config
  config

/-- `nextCategory`: decides the next interval category from the repository's
answers.  `last` is the `(Interval, error)` pair returned by `r.Last()` and
`breaks` the `([]Interval, error)` pair returned by `r.Breaks(3)`; the Go
function only reaches the `Breaks` call on the branch that inspects
`breaks`, so independence of the result from `breaks` on the other branches
is exactly "Breaks is not called".  Control flow mirrors the source:
`ErrNoIntervals` from `Last` is remapped to `(CategoryPomodoro, nil)`, any
other error is returned with the empty string; a last break yields
`CategoryPomodoro`; otherwise fewer than 3 returned breaks yield
`CategoryShortBreak`, a `LongBreak` among them yields `CategoryShortBreak`,
and otherwise `CategoryLongBreak`. -/
def nextCategory (last : Interval × Option GoError)
    (breaks : List Interval × Option GoError) : String × Option GoError :=
  match last.2 with
  | some e =>
    if e = GoError.errNoIntervals then
      (CategoryPomodoro, none)
    else
      ("", some e)
  | none =>
    let lastInterval := last.1
    if lastInterval.Category = CategoryLongBreak ∨ lastInterval.Category = CategoryShortBreak then
      (CategoryPomodoro, none)
    else
      match breaks.2 with
      | some e => ("", some e)
      | none =>
        let lastBreaks := breaks.1
        if lastBreaks.length < 3 then
          (CategoryShortBreak, none)
        else if lastBreaks.any (fun i => i.Category = CategoryLongBreak) then
          (CategoryShortBreak, none)
        else
          (CategoryLongBreak, none)

/-- The repository as seen by `tick`: the single interval addressed by
`ByID(id)` plus a schedule of injected failures.  Every storage operation
(`ByID` or `Update`) consumes the head of `failures`; a `some e` head makes
that operation fail with `e`, a `none` head (or exhausted schedule) lets it
succeed.  This models "a storage failure injected on any ByID/Update call". -/
structure Store where
  interval : Interval
  failures : List (Option GoError) := []
deriving DecidableEq, Repr

/-- Consume the next slot of the failure schedule. -/
def Store.nextFail (s : Store) : Option GoError × Store :=
  match s.failures with
  | [] => (none, s)
  | f :: rest => (f, { s with failures := rest })

/-- `config.repo.ByID(id)`: returns the stored interval, or the injected
error; the store's interval is never changed by a read. -/
def Store.byID (s : Store) : (Interval × Option GoError) × Store :=
  match s.nextFail with
  | (some e, s₁) => ((s₁.interval, some e), s₁)
  | (none, s₁) => ((s₁.interval, none), s₁)

/-- `config.repo.Update(i)`: overwrites the stored interval, or fails with
the injected error leaving the stored interval unchanged. -/
def Store.update (s : Store) (i : Interval) : Option GoError × Store :=
  match s.nextFail with
  | (some e, s₁) => (some e, s₁)
  | (none, s₁) => (none, { s₁ with interval := i })

/-- One ready event serviced by the `select` statement in `tick`:
`tickEv` for `<-ticker.C`, `expireEv` for `<-expire`, `cancelEv` for
`<-ctx.Done()`. -/
inductive Event where
  | tickEv
  | expireEv
  | cancelEv
deriving DecidableEq, Repr

/-- Observable callback and persistence activity of one `tick` run: the
snapshots passed to `start`, `periodic` and `end`, and the intervals handed
to `repo.Update` (logged at the call, before its success is known). -/
structure TickLog where
  startCalls : List Interval := []
  periodicCalls : List Interval := []
  endCalls : List Interval := []
  updateCalls : List Interval := []
deriving DecidableEq, Repr

/-- Result of running `tick` on a finite list of serviced events:
`returned e` when the function returned (`e = none` is a `nil` error), or
`running` when the event list was exhausted with the loop still blocked in
`select`. -/
inductive Outcome where
  | returned (e : Option GoError)
  | running
deriving DecidableEq, Repr

/-- The `for { select { ... } }` loop of `tick`, servicing the given events
in order.  Each branch mirrors the source:

* `tickEv` — re-fetch by id (an error returns it); `return nil` if the
  fetched state is `StatePaused`; otherwise add `time.Second` to
  `ActualDuration`, persist via `Update` (an error returns it), then call
  `periodic` with the updated snapshot.
* `expireEv` — re-fetch (an error returns it); set `State = StateDone` on
  the fetched copy; call `end` with it; return the result of `Update`.
* `cancelEv` — re-fetch (an error returns it); set `State = StateCancelled`
  on the fetched copy.  The source neither persists this copy nor leaves the
  loop: the assignment is to a branch-local variable that then goes out of
  scope, so the branch has no effect beyond the `ByID` call, and the loop
  continues with the next event. -/
def runLoop : Store → TickLog → List Event → Outcome × Store × TickLog
  | s, log, [] => (Outcome.running, s, log)
  | s, log, Event.tickEv :: rest =>
    match s.byID with
    | ((_, some e), s₁) => (Outcome.returned (some e), s₁, log)
    | ((interval, none), s₁) =>
      if interval.State = StatePaused then
        (Outcome.returned none, s₁, log)
      else
        let interval₁ := { interval with ActualDuration := interval.ActualDuration + second }
        let log₁ := { log with updateCalls := log.updateCalls ++ [interval₁] }
        match s₁.update interval₁ with
        | (some e, s₂) => (Outcome.returned (some e), s₂, log₁)
        | (none, s₂) =>
          let log₂ := { log₁ with periodicCalls := log₁.periodicCalls ++ [interval₁] }
          runLoop s₂ log₂ rest
  | s, log, Event.expireEv :: _ =>
    match s.byID with
    | ((_, some e), s₁) => (Outcome.returned (some e), s₁, log)
    | ((interval, none), s₁) =>
      let interval₁ := { interval with State := StateDone }
      let log₁ := { log with endCalls := log.endCalls ++ [interval₁],
                             updateCalls := log.updateCalls ++ [interval₁] }
      match s₁.update interval₁ with
      | (some e, s₂) => (Outcome.returned (some e), s₂, log₁)
      | (none, s₂) => (Outcome.returned none, s₂, log₁)
  | s, log, Event.cancelEv :: rest =>
    match s.byID with
    | ((_, some e), s₁) => (Outcome.returned (some e), s₁, log)
    | ((interval, none), s₁) =>
      let _ := { interval with State := StateCancelled }
      runLoop s₁ log rest

/-- The `tick` function: initial `ByID` fetch (an error returns it), the
expiry deadline `PlannedDuration - ActualDuration` is armed (its firing time
is reflected in which event lists are realizable), `start` is called with
the fetched snapshot, then the loop runs. -/
def tick (s : Store) (events : List Event) : Outcome × Store × TickLog :=
  match s.byID with
  | ((_, some e), s₁) => (Outcome.returned (some e), s₁, {})
  | ((interval, none), s₁) =>
    runLoop s₁ { startCalls := [interval] } events

/-- The events serviced by an uninterrupted run whose expiry deadline is a
whole number `D` of seconds: the ticker (created at function entry, before
the expiry timer) fires at seconds 1..D, each strictly before the expiry
timer's single firing at second D, so `D` ticker events are serviced and
then the expiry event. -/
def uninterruptedTrace (D : Nat) : List Event :=
  List.replicate D Event.tickEv ++ [Event.expireEv]

/-- Number of ticker events serviced before the first expiry event in a
trace.  Realizability bound: the ticker can fire at most once per elapsed
second, and the expiry timer fires `PlannedDuration - ActualDuration` after
loop entry, so a realizable trace has
`ticksBeforeExpire events * second ≤ PlannedDuration - ActualDuration`
(cancellation events, which the ticker and expiry do not wait for, are
skipped by the count). -/
def ticksBeforeExpire : List Event → Nat
  | [] => 0
  | Event.tickEv :: rest => ticksBeforeExpire rest + 1
  | Event.expireEv :: _ => 0
  | Event.cancelEv :: rest => ticksBeforeExpire rest

/-! Helper lemmas about the storage operations. -/

lemma Store.byID_nil (s : Store) (h : s.failures = []) :
    s.byID = ((s.interval, none), s) := by
  simp [Store.byID, Store.nextFail, h]

lemma Store.byID_cons_none (s : Store) (tl : List (Option GoError))
    (h : s.failures = none :: tl) :
    s.byID = ((s.interval, none), { s with failures := tl }) := by
  simp [Store.byID, Store.nextFail, h]

lemma Store.byID_cons_some (s : Store) (e : GoError) (tl : List (Option GoError))
    (h : s.failures = some e :: tl) :
    s.byID = ((s.interval, some e), { s with failures := tl }) := by
  simp [Store.byID, Store.nextFail, h]

lemma Store.update_nil (s : Store) (i : Interval) (h : s.failures = []) :
    s.update i = (none, { s with interval := i }) := by
  simp [Store.update, Store.nextFail, h]

lemma Store.update_cons_none (s : Store) (i : Interval) (tl : List (Option GoError))
    (h : s.failures = none :: tl) :
    s.update i = (none, { s with interval := i, failures := tl }) := by
  simp [Store.update, Store.nextFail, h]

lemma Store.update_cons_some (s : Store) (i : Interval) (e : GoError)
    (tl : List (Option GoError)) (h : s.failures = some e :: tl) :
    s.update i = (some e, { s with failures := tl }) := by
  simp [Store.update, Store.nextFail, h]

lemma Store.byID_interval_eq (s : Store) :
    (s.byID).1.1 = s.interval ∧ (s.byID).2.interval = s.interval := by
  rcases h : s.failures with _ | ⟨_ | e, tl⟩ <;>
    simp [Store.byID, Store.nextFail, h]

/-! ## C10 — `NewConfig` default/override behaviour -/

/-- C10: `NewConfig` treats any non-positive duration argument as unset: a
zero or negative `pomodoro`, `shortBreak` or `longBreak` leaves the
corresponding field at its default (25, 5 or 15 minutes respectively), and a
strictly positive argument replaces the default exactly. -/
theorem newConfig_nonpositive_defaults_positive_overrides (p s l : Int) :
    ((p ≤ 0 → (NewConfig p s l).PomodoroDuration = 25 * minute) ∧
      (0 < p → (NewConfig p s l).PomodoroDuration = p)) ∧
    ((s ≤ 0 → (NewConfig p s l).ShortBreakDuration = 5 * minute) ∧
      (0 < s → (NewConfig p s l).ShortBreakDuration = s)) ∧
    ((l ≤ 0 → (NewConfig p s l).LongBreakDuration = 15 * minute) ∧
      (0 < l → (NewConfig p s l).LongBreakDuration = l)) := by
  refine ⟨⟨fun hp0 => ?pd, fun hp1 => ?pv⟩, ⟨fun hs0 => ?sd, fun hs1 => ?sv⟩,
    fun hl0 => ?ld, fun hl1 => ?lv⟩ <;>
    simp only [NewConfig, apply_ite (IntervalConfig.PomodoroDuration),
      apply_ite (IntervalConfig.ShortBreakDuration),
      apply_ite (IntervalConfig.LongBreakDuration), ite_self] <;>
    split <;> omega

/-- Witness for C10 at `pomodoro = -1`, `shortBreak = 0`,
`longBreak = 7 * minute`. -/
theorem newConfig_nonpositive_defaults_positive_overrides_witness :
    (NewConfig (-1) 0 (7 * minute)).PomodoroDuration = 25 * minute ∧
    (NewConfig (-1) 0 (7 * minute)).ShortBreakDuration = 5 * minute ∧
    (NewConfig (-1) 0 (7 * minute)).LongBreakDuration = 7 * minute :=
  ⟨(newConfig_nonpositive_defaults_positive_overrides (-1) 0 (7 * minute)).1.1 (by decide),
   (newConfig_nonpositive_defaults_positive_overrides (-1) 0 (7 * minute)).2.1.1 (by decide),
   (newConfig_nonpositive_defaults_positive_overrides (-1) 0 (7 * minute)).2.2.2
     (by decide)⟩

/-! ## C7 — `nextCategory` on a failing `Last()` -/

/-- C7: when `Last()` fails with `ErrNoIntervals`, `nextCategory` suppresses
the error and returns `(CategoryPomodoro, nil)`; when `Last()` fails with any
other error, `nextCategory` returns that error unchanged together with the
empty category string. -/
theorem nextCategory_last_error (i : Interval) (bs : List Interval × Option GoError)
    (e : GoError) :
    nextCategory (i, some GoError.errNoIntervals) bs = (CategoryPomodoro, none) ∧
    (e ≠ GoError.errNoIntervals → nextCategory (i, some e) bs = ("", some e)) := by
  constructor
  · simp [nextCategory]
  · intro h
    simp [nextCategory, h]

/-- Witness for C7 with an `ErrInvalidID` failure from `Last()`. -/
theorem nextCategory_last_error_witness :
    nextCategory ({}, some GoError.errNoIntervals) ([], none) = (CategoryPomodoro, none) ∧
    nextCategory ({}, some GoError.errInvalidID) ([], none) = ("", some GoError.errInvalidID) :=
  ⟨(nextCategory_last_error {} ([], none) GoError.errInvalidID).1,
   (nextCategory_last_error {} ([], none) GoError.errInvalidID).2 (by decide)⟩

/-! ## C9 — a break is always followed by work -/

/-- C9: when `Last()` succeeds with an interval whose category is
`ShortBreak` or `LongBreak`, `nextCategory` returns `(CategoryPomodoro, nil)`.
The statement quantifies over an arbitrary `Breaks(3)` answer `bs` (including
failing ones) and the result does not depend on it, which is the shallow
counterpart of the source returning on this branch before ever calling
`Breaks`. -/
theorem nextCategory_after_break (i : Interval) (bs : List Interval × Option GoError)
    (h : i.Category = CategoryShortBreak ∨ i.Category = CategoryLongBreak) :
    nextCategory (i, none) bs = (CategoryPomodoro, none) := by
  rcases h with h | h <;> simp [nextCategory, h, CategoryShortBreak, CategoryLongBreak]

/-- Witness for C9: a last `ShortBreak` yields `Pomodoro` even when the
(uncalled) `Breaks(3)` lookup would have failed. -/
theorem nextCategory_after_break_witness :
    nextCategory ({ Category := CategoryShortBreak }, none)
      ([], some GoError.errInvalidID) = (CategoryPomodoro, none) :=
  nextCategory_after_break { Category := CategoryShortBreak }
    ([], some GoError.errInvalidID) (Or.inl rfl)

/-! ## C8 — rotation after a `Pomodoro` -/

/-- C8: when the last interval is a `Pomodoro` and `Breaks(3)` succeeds,
`nextCategory` returns `ShortBreak` (with a nil error) if fewer than 3 breaks
were returned or if one of the returned 3 most recent breaks is a
`LongBreak`, and returns `LongBreak` if 3 breaks were returned and none of
them is a `LongBreak`. -/
theorem nextCategory_after_pomodoro (i : Interval) (bs : List Interval)
    (hcat : i.Category = CategoryPomodoro) :
    (bs.length < 3 → nextCategory (i, none) (bs, none) = (CategoryShortBreak, none)) ∧
    (bs.length = 3 →
      ((∃ b ∈ bs, b.Category = CategoryLongBreak) →
        nextCategory (i, none) (bs, none) = (CategoryShortBreak, none)) ∧
      ((∀ b ∈ bs, b.Category ≠ CategoryLongBreak) →
        nextCategory (i, none) (bs, none) = (CategoryLongBreak, none))) := by
  refine ⟨fun hlen => ?_, fun hlen => ⟨fun hlong => ?_, fun hnone => ?_⟩⟩ <;>
    simp [nextCategory, hcat, CategoryPomodoro, CategoryShortBreak, CategoryLongBreak,
      hlen, List.any_eq_true] <;>
    first
      | exact hlong
      | (intro b hb; exact hnone b hb)

/-- Witness for C8: three short breaks after a `Pomodoro` yield `LongBreak`.
-/
theorem nextCategory_after_pomodoro_witness :
    nextCategory ({ Category := CategoryPomodoro }, none)
      ([{ Category := CategoryShortBreak }, { Category := CategoryShortBreak },
        { Category := CategoryShortBreak }], none) = (CategoryLongBreak, none) :=
  ((nextCategory_after_pomodoro { Category := CategoryPomodoro }
      [{ Category := CategoryShortBreak }, { Category := CategoryShortBreak },
        { Category := CategoryShortBreak }] rfl).2 rfl).2 (by decide)

/-! ## C5 — pause observed on the periodic-tick branch -/

/-- C5: if a periodic-tick iteration re-fetches the interval and the fetch
succeeds with `state = Paused`, the loop returns a nil error at once; the
log is unchanged (so no `onTick` or `onComplete` invocation and no `Update`
call is made on this exit) and the stored interval's fields are unchanged
(only the failure-injection schedule slot consumed by the `ByID` read is
gone from the store). -/
theorem runLoop_paused_returns_without_mutation (s : Store) (log : TickLog)
    (rest : List Event) (i : Interval) (hfetch : (s.byID).1 = (i, none))
    (hp : i.State = StatePaused) :
    runLoop s log (Event.tickEv :: rest) = (Outcome.returned none, (s.byID).2, log) ∧
    ((s.byID).2).interval = s.interval := by
  obtain ⟨h1, h2⟩ := Store.byID_interval_eq s
  refine ⟨?_, h2⟩
  rcases hb : s.byID with ⟨⟨j, err⟩, s₁⟩
  rw [hb] at hfetch
  obtain ⟨rfl, rfl⟩ : j = i ∧ err = none := by simpa using hfetch
  simp [runLoop, hb, hp]

/-- Witness for C5: a concrete paused interval, one serviced ticker event. -/
theorem runLoop_paused_returns_without_mutation_witness :
    runLoop { interval := { ID := 1, PlannedDuration := 3 * second, ActualDuration := second, Category := CategoryPomodoro, State := StatePaused } } {}
        [Event.tickEv]
      = (Outcome.returned none,
         ({ interval := { ID := 1, PlannedDuration := 3 * second, ActualDuration := second, Category := CategoryPomodoro, State := StatePaused } } : Store).byID.2,
         {}) ∧
    (({ interval := { ID := 1, PlannedDuration := 3 * second, ActualDuration := second, Category := CategoryPomodoro, State := StatePaused } } : Store).byID.2).interval
      = ({ ID := 1, PlannedDuration := 3 * second, ActualDuration := second, Category := CategoryPomodoro, State := StatePaused } : Interval) :=
  runLoop_paused_returns_without_mutation _ {} [] _ rfl rfl

/-! ## C1 — the cancellation branch does not stop the loop -/

/-- C1 (violated by the code): the `ctx.Done()` branch assigns
`StateCancelled` to a branch-local copy of the interval, never persists it
and never leaves the loop.  Evaluating `tick` on a running 3-second interval
whose cancellation signal fires before the first ticker event: the loop
keeps servicing ticker events (`onTick` fires 3 more times and
`actualDuration` keeps growing), the expiry branch eventually fires
`onComplete`, no persisted interval ever carries `StateCancelled`, and the
run ends with the interval `Done` — contradicting the claim that the loop
exits after the cancellation branch with `state = Cancelled`, no further
tick increments and no `onComplete`. -/
theorem tick_cancellation_branch_not_terminal :
    tick { interval := { ID := 1, PlannedDuration := 3 * second, ActualDuration := 0, Category := CategoryPomodoro, State := StateRunning } }
        (Event.cancelEv :: uninterruptedTrace 3)
      = (Outcome.returned none,
         { interval := { ID := 1, PlannedDuration := 3 * second, ActualDuration := 3 * second, Category := CategoryPomodoro, State := StateDone } },
         { startCalls := [{ ID := 1, PlannedDuration := 3 * second, ActualDuration := 0, Category := CategoryPomodoro, State := StateRunning }],
           periodicCalls := [{ ID := 1, PlannedDuration := 3 * second, ActualDuration := 1 * second, Category := CategoryPomodoro, State := StateRunning },
                             { ID := 1, PlannedDuration := 3 * second, ActualDuration := 2 * second, Category := CategoryPomodoro, State := StateRunning },
                             { ID := 1, PlannedDuration := 3 * second, ActualDuration := 3 * second, Category := CategoryPomodoro, State := StateRunning }],
           endCalls := [{ ID := 1, PlannedDuration := 3 * second, ActualDuration := 3 * second, Category := CategoryPomodoro, State := StateDone }],
           updateCalls := [{ ID := 1, PlannedDuration := 3 * second, ActualDuration := 1 * second, Category := CategoryPomodoro, State := StateRunning },
                           { ID := 1, PlannedDuration := 3 * second, ActualDuration := 2 * second, Category := CategoryPomodoro, State := StateRunning },
                           { ID := 1, PlannedDuration := 3 * second, ActualDuration := 3 * second, Category := CategoryPomodoro, State := StateRunning },
                           { ID := 1, PlannedDuration := 3 * second, ActualDuration := 3 * second, Category := CategoryPomodoro, State := StateDone }] }) := by
  decide

/-! ## C2 — `Done`/`Cancelled` are not treated as terminal by `tick` -/

/-- C2 (violated by the code): `tick` only checks for `StatePaused`; it has
no guard for `StateDone` or `StateCancelled` (the declared
`ErrIntervalCompleted` error is never consulted).  Invoking `tick` against a
stored `Cancelled` interval with 3 seconds of remaining planned duration:
the ticker branch increments `actualDuration` three times and persists each
update, and the expiry branch then overwrites the state with `StateDone` —
contradicting the claim that such an invocation never increments
`actualDuration`, never changes the state and never persists an update. -/
theorem tick_mutates_cancelled_interval :
    tick { interval := { ID := 1, PlannedDuration := 3 * second, ActualDuration := 0, Category := CategoryPomodoro, State := StateCancelled } }
        (uninterruptedTrace 3)
      = (Outcome.returned none,
         { interval := { ID := 1, PlannedDuration := 3 * second, ActualDuration := 3 * second, Category := CategoryPomodoro, State := StateDone } },
         { startCalls := [{ ID := 1, PlannedDuration := 3 * second, ActualDuration := 0, Category := CategoryPomodoro, State := StateCancelled }],
           periodicCalls := [{ ID := 1, PlannedDuration := 3 * second, ActualDuration := 1 * second, Category := CategoryPomodoro, State := StateCancelled },
                             { ID := 1, PlannedDuration := 3 * second, ActualDuration := 2 * second, Category := CategoryPomodoro, State := StateCancelled },
                             { ID := 1, PlannedDuration := 3 * second, ActualDuration := 3 * second, Category := CategoryPomodoro, State := StateCancelled }],
           endCalls := [{ ID := 1, PlannedDuration := 3 * second, ActualDuration := 3 * second, Category := CategoryPomodoro, State := StateDone }],
           updateCalls := [{ ID := 1, PlannedDuration := 3 * second, ActualDuration := 1 * second, Category := CategoryPomodoro, State := StateCancelled },
                           { ID := 1, PlannedDuration := 3 * second, ActualDuration := 2 * second, Category := CategoryPomodoro, State := StateCancelled },
                           { ID := 1, PlannedDuration := 3 * second, ActualDuration := 3 * second, Category := CategoryPomodoro, State := StateCancelled },
                           { ID := 1, PlannedDuration := 3 * second, ActualDuration := 3 * second, Category := CategoryPomodoro, State := StateDone }] }) := by
  decide

/-! ## C3 — the uninterrupted 3-second run -/

/-- C3 (counterexample): the claim requires both "`onTick` fires exactly 2
times before the expiry branch" and "`onComplete` receives a snapshot with
`actualDuration = plannedDuration`", and no servicing order of the 3-second
run satisfies both.  Under the code's event ordering (the ticker is created
before the expiry timer, so its firing at the shared 3s deadline is serviced
first) `onTick` fires 3 times, not 2; under the alternative resolution in
which the expiry event is serviced first at the 3s instant, `onTick` fires
2 times but the `onComplete` snapshot carries `actualDuration = 2s ≠
plannedDuration`. -/
theorem tick_three_second_run_not_two_onTicks :
    let r := tick { interval := { ID := 1, PlannedDuration := 3 * second, ActualDuration := 0, Category := CategoryPomodoro, State := StateRunning } }
      (uninterruptedTrace 3)
    let r2 := tick { interval := { ID := 1, PlannedDuration := 3 * second, ActualDuration := 0, Category := CategoryPomodoro, State := StateRunning } }
      [Event.tickEv, Event.tickEv, Event.expireEv]
    (r.2.2.periodicCalls.length = 3 ∧ r.2.2.periodicCalls.length ≠ 2) ∧
    (r2.2.2.periodicCalls.length = 2 ∧
      ∀ u ∈ r2.2.2.endCalls, u.ActualDuration ≠ u.PlannedDuration) := by decide

/-- C3 (amended): for an interval run uninterrupted from
`plannedDuration = 3s`, `actualDuration = 0s`, `onTick` is invoked exactly 3
times (with snapshots at 1s, 2s and 3s); the expiry branch then re-fetches
the interval, sets `state = Done`, invokes `onComplete` with a snapshot in
which `actualDuration = plannedDuration`, persists that update and returns a
nil error. -/
theorem tick_three_second_run_behaviour :
    tick { interval := { ID := 1, PlannedDuration := 3 * second, ActualDuration := 0, Category := CategoryPomodoro, State := StateRunning } }
        (uninterruptedTrace 3)
      = (Outcome.returned none,
         { interval := { ID := 1, PlannedDuration := 3 * second, ActualDuration := 3 * second, Category := CategoryPomodoro, State := StateDone } },
         { startCalls := [{ ID := 1, PlannedDuration := 3 * second, ActualDuration := 0, Category := CategoryPomodoro, State := StateRunning }],
           periodicCalls := [{ ID := 1, PlannedDuration := 3 * second, ActualDuration := 1 * second, Category := CategoryPomodoro, State := StateRunning },
                             { ID := 1, PlannedDuration := 3 * second, ActualDuration := 2 * second, Category := CategoryPomodoro, State := StateRunning },
                             { ID := 1, PlannedDuration := 3 * second, ActualDuration := 3 * second, Category := CategoryPomodoro, State := StateRunning }],
           endCalls := [{ ID := 1, PlannedDuration := 3 * second, ActualDuration := 3 * second, Category := CategoryPomodoro, State := StateDone }],
           updateCalls := [{ ID := 1, PlannedDuration := 3 * second, ActualDuration := 1 * second, Category := CategoryPomodoro, State := StateRunning },
                           { ID := 1, PlannedDuration := 3 * second, ActualDuration := 2 * second, Category := CategoryPomodoro, State := StateRunning },
                           { ID := 1, PlannedDuration := 3 * second, ActualDuration := 3 * second, Category := CategoryPomodoro, State := StateRunning },
                           { ID := 1, PlannedDuration := 3 * second, ActualDuration := 3 * second, Category := CategoryPomodoro, State := StateDone }] }) := by
  decide

lemma Store.byID_fst (s : Store) : (s.byID).1.1 = s.interval :=
  (Store.byID_interval_eq s).1

lemma Store.byID_snd (s : Store) : (s.byID).2.interval = s.interval :=
  (Store.byID_interval_eq s).2

lemma Store.update_interval_spec (s : Store) (i : Interval) :
    ((s.update i).1 = none → (s.update i).2.interval = i) ∧
    ((s.update i).1 ≠ none → (s.update i).2.interval = s.interval) := by
  rcases h : s.failures with _ | ⟨f, tl⟩
  · simp [Store.update, Store.nextFail, h]
  · cases f <;> simp [Store.update, Store.nextFail, h]

def withinPlanned (i : Interval) : Prop :=
  i.ActualDuration ≤ i.PlannedDuration

def logWithinPlanned (log : TickLog) : Prop :=
  (∀ u ∈ log.startCalls, withinPlanned u) ∧
  (∀ u ∈ log.periodicCalls, withinPlanned u) ∧
  (∀ u ∈ log.endCalls, withinPlanned u) ∧
  (∀ u ∈ log.updateCalls, withinPlanned u)

lemma runLoop_within_planned :
    ∀ (evs : List Event) (s : Store) (log : TickLog),
    s.interval.ActualDuration + (ticksBeforeExpire evs : Int) * second ≤
      s.interval.PlannedDuration →
    logWithinPlanned log →
    logWithinPlanned (runLoop s log evs).2.2 ∧
      withinPlanned (runLoop s log evs).2.1.interval := by
  intro evs
  induction evs with
  | nil =>
    intro s log hs hlog
    refine ⟨hlog, ?_⟩
    simp only [ticksBeforeExpire, Nat.cast_zero, zero_mul, add_zero] at hs
    exact hs
  | cons ev rest ih =>
    intro s log hs hlog
    have hi := Store.byID_fst s
    have hs₁i := Store.byID_snd s
    rcases hb : s.byID with ⟨⟨i, err⟩, s₁⟩
    rw [hb] at hi hs₁i
    simp only at hi hs₁i
    cases ev with
    | tickEv =>
      simp only [ticksBeforeExpire, Nat.cast_add, Nat.cast_one, second] at hs
      simp only [runLoop, hb]
      cases err with
      | some e =>
        refine ⟨hlog, ?_⟩
        rw [withinPlanned, hs₁i]
        omega
      | none =>
        by_cases hp : i.State = StatePaused
        · simp only [if_pos hp]
          refine ⟨hlog, ?_⟩
          rw [withinPlanned, hs₁i]
          omega
        · simp only [if_neg hp]
          have hwi : withinPlanned { i with ActualDuration := i.ActualDuration + second } := by
            rw [withinPlanned]
            simp only [hi, second]
            omega
          have hu := Store.update_interval_spec s₁ { i with ActualDuration := i.ActualDuration + second }
          rcases hu' : s₁.update { i with ActualDuration := i.ActualDuration + second } with ⟨err₂, s₂⟩
          rw [hu'] at hu
          simp only at hu
          obtain ⟨hlog1, hlog2, hlog3, hlog4⟩ := hlog
          cases err₂ with
          | some e₂ =>
            refine ⟨⟨hlog1, hlog2, hlog3, ?_⟩, ?_⟩
            · intro u hu''
              rcases List.mem_append.mp hu'' with h | h
              · exact hlog4 u h
              · rw [List.mem_singleton.mp h]
                exact hwi
            · rw [withinPlanned, hu.2 (by simp), hs₁i]
              omega
          | none =>
            apply ih
            · rw [hu.1 rfl]
              simp only [hi, second]
              omega
            · refine ⟨hlog1, ?_, hlog3, ?_⟩ <;>
                intro u hu'' <;>
                rcases List.mem_append.mp hu'' with h | h
              · exact hlog2 u h
              · rw [List.mem_singleton.mp h]; exact hwi
              · exact hlog4 u h
              · rw [List.mem_singleton.mp h]; exact hwi
    | expireEv =>
      simp only [ticksBeforeExpire, Nat.cast_zero, zero_mul, add_zero] at hs
      simp only [runLoop, hb]
      cases err with
      | some e =>
        dsimp only
        refine ⟨hlog, ?_⟩
        rw [withinPlanned, hs₁i]
        exact hs
      | none =>
        dsimp only
        have hwi : withinPlanned { i with State := StateDone } := by
          rw [withinPlanned]
          simp only [hi]
          exact hs
        have hu := Store.update_interval_spec s₁ { i with State := StateDone }
        rcases hu' : s₁.update { i with State := StateDone } with ⟨err₂, s₂⟩
        rw [hu'] at hu
        simp only at hu
        obtain ⟨hlog1, hlog2, hlog3, hlog4⟩ := hlog
        have hlog' : logWithinPlanned
            { log with endCalls := log.endCalls ++ [{ i with State := StateDone }],
                       updateCalls := log.updateCalls ++ [{ i with State := StateDone }] } := by
          refine ⟨hlog1, hlog2, ?_, ?_⟩ <;>
            intro u hu'' <;>
            rcases List.mem_append.mp hu'' with h | h
          · exact hlog3 u h
          · rw [List.mem_singleton.mp h]; exact hwi
          · exact hlog4 u h
          · rw [List.mem_singleton.mp h]; exact hwi
        cases err₂ with
        | some e₂ =>
          refine ⟨hlog', ?_⟩
          rw [withinPlanned, hu.2 (by simp), hs₁i]
          exact hs
        | none =>
          refine ⟨hlog', ?_⟩
          rw [withinPlanned, hu.1 rfl]
          simp only [hi]
          exact hs
    | cancelEv =>
      simp only [ticksBeforeExpire] at hs
      simp only [runLoop, hb]
      cases err with
      | some e =>
        dsimp only
        refine ⟨hlog, ?_⟩
        rw [withinPlanned, hs₁i]
        simp only [second] at hs
        omega
      | none =>
        dsimp only
        apply ih
        · rw [hs₁i]
          exact hs
        · exact hlog
/-! ## C4 — `actualDuration` never exceeds `plannedDuration` -/

/-- C4: for every entry store and every realizable servicing order,
`actualDuration ≤ plannedDuration` holds for every snapshot the run
produces — each snapshot passed to `onStart`, `onTick` and `onComplete`,
each interval handed to `Update`, and the finally stored interval
(equality, reached at the instant of expiry by the last tick, is the `≤`
boundary that triggers the `Done` transition).  The hypothesis is the
realizability bound of the timing model: the ticker fires at most once per
elapsed second and the expiry timer fires `PlannedDuration -
ActualDuration` after entry and is serviced without starvation (the spec's
arrival-order contract), so the number of ticker events serviced before the
expiry event satisfies `ticksBeforeExpire evs * second ≤ PlannedDuration -
ActualDuration`; for an entry state with `actualDuration ≤ plannedDuration`
no trace within this bound drives `actualDuration` strictly above
`plannedDuration`. -/
theorem tick_actualDuration_le_plannedDuration (s : Store) (evs : List Event)
    (hreal : s.interval.ActualDuration + (ticksBeforeExpire evs : Int) * second ≤
      s.interval.PlannedDuration) :
    logWithinPlanned (tick s evs).2.2 ∧ withinPlanned (tick s evs).2.1.interval := by
  have hi := Store.byID_fst s
  have hs₁i := Store.byID_snd s
  rcases hb : s.byID with ⟨⟨i, err⟩, s₁⟩
  rw [hb] at hi hs₁i
  simp only at hi hs₁i
  simp only [tick, hb]
  cases err with
  | some e =>
    dsimp only
    refine ⟨⟨?sc, ?pc, ?ec, ?uc⟩, ?fin⟩ <;>
      first
        | (intro u hu; simp at hu)
        | (rw [withinPlanned, hs₁i]
           simp only [second] at hreal
           omega)
  | none =>
    dsimp only
    apply runLoop_within_planned
    · rw [hs₁i]
      exact hreal
    · refine ⟨?s0, ?p0, ?e0, ?u0⟩ <;> intro u hu <;> simp at hu
      rw [hu, hi, withinPlanned]
      simp only [second] at hreal
      omega

/-- Witness for C4: the uninterrupted 3-second run from
`actualDuration = 0`. -/
theorem tick_actualDuration_le_plannedDuration_witness :
    logWithinPlanned (tick { interval := { ID := 1, PlannedDuration := 3 * second, ActualDuration := 0, Category := CategoryPomodoro, State := StateRunning } } (uninterruptedTrace 3)).2.2 ∧
    withinPlanned (tick { interval := { ID := 1, PlannedDuration := 3 * second, ActualDuration := 0, Category := CategoryPomodoro, State := StateRunning } } (uninterruptedTrace 3)).2.1.interval :=
  tick_actualDuration_le_plannedDuration _ _ (by decide)
lemma runLoop_first_failure :
    ∀ (evs : List Event) (s : Store) (log : TickLog) (e : GoError)
      (pre rest : List (Option GoError)),
    s.failures = pre ++ some e :: rest →
    (∀ f ∈ pre, f = none) →
    (runLoop s log evs).2.1.failures.length ≤ rest.length →
    (runLoop s log evs).1 = Outcome.returned (some e) ∧
      (runLoop s log evs).2.1.failures = rest := by
  intro evs
  induction evs with
  | nil =>
    intro s log e pre rest hsched hpre hcons
    exfalso
    simp only [runLoop] at hcons
    rw [hsched] at hcons
    simp at hcons
    omega
  | cons ev rest' ih =>
    intro s log e pre rest hsched hpre hcons
    cases ev with
    | tickEv =>
      cases pre with
      | nil =>
        have hb := Store.byID_cons_some s e rest (by simpa using hsched)
        simp only [runLoop, hb]
        constructor <;> trivial
      | cons f pre' =>
        have hf : f = none := hpre f (List.mem_cons_self f pre')
        subst hf
        have hb := Store.byID_cons_none s (pre' ++ some e :: rest) (by simpa using hsched)
        simp only [runLoop, hb] at hcons ⊢
        by_cases hp : s.interval.State = StatePaused
        · rw [if_pos hp] at hcons ⊢
          exfalso
          simp at hcons
          omega
        · rw [if_neg hp] at hcons ⊢
          cases pre' with
          | nil =>
            have hu := Store.update_cons_some { s with failures := [] ++ some e :: rest }
              { s.interval with ActualDuration := s.interval.ActualDuration + second } e rest
              (by simp)
            simp only [hu]
            constructor <;> trivial
          | cons g pre'' =>
            have hg : g = none := hpre g (by simp)
            subst hg
            have hu := Store.update_cons_none { s with failures := (none :: pre'') ++ some e :: rest }
              { s.interval with ActualDuration := s.interval.ActualDuration + second }
              (pre'' ++ some e :: rest) (by simp)
            simp only [hu] at hcons ⊢
            exact ih _ _ e pre'' rest rfl (fun f hf => hpre f (by simp [hf])) hcons
    | expireEv =>
      cases pre with
      | nil =>
        have hb := Store.byID_cons_some s e rest (by simpa using hsched)
        simp only [runLoop, hb]
        constructor <;> trivial
      | cons f pre' =>
        have hf : f = none := hpre f (List.mem_cons_self f pre')
        subst hf
        have hb := Store.byID_cons_none s (pre' ++ some e :: rest) (by simpa using hsched)
        simp only [runLoop, hb] at hcons ⊢
        cases pre' with
        | nil =>
          have hu := Store.update_cons_some { s with failures := [] ++ some e :: rest }
            { s.interval with State := StateDone } e rest (by simp)
          simp only [hu]
          constructor <;> trivial
        | cons g pre'' =>
          have hg : g = none := hpre g (by simp)
          subst hg
          have hu := Store.update_cons_none { s with failures := (none :: pre'') ++ some e :: rest }
            { s.interval with State := StateDone } (pre'' ++ some e :: rest) (by simp)
          simp only [hu] at hcons ⊢
          exfalso
          simp at hcons
          omega
    | cancelEv =>
      cases pre with
      | nil =>
        have hb := Store.byID_cons_some s e rest (by simpa using hsched)
        simp only [runLoop, hb]
        constructor <;> trivial
      | cons f pre' =>
        have hf : f = none := hpre f (List.mem_cons_self f pre')
        subst hf
        have hb := Store.byID_cons_none s (pre' ++ some e :: rest) (by simpa using hsched)
        simp only [runLoop, hb] at hcons ⊢
        exact ih _ _ e pre' rest rfl (fun f hf => hpre f (by simp [hf])) hcons

/-! ## C6 — storage failures abort the run with the exact error -/

/-- C6: if the failure-injection schedule makes some `ByID`/`Update` call of
the run fail with `e` (all earlier storage operations succeeding: the
schedule is `pre ++ some e :: rest` with `pre` all `none`), and the run
consumed the failing slot (its remaining schedule is no longer than
`rest`), then `tick` returned exactly `Outcome.returned (some e)` and the
remaining schedule is exactly `rest` — the operation right after the
failing one was never performed, so the loop stopped immediately at the
failure, with no retry and no further tick increments.  This covers the
initial fetch and every branch of the loop, since all of them consume
schedule slots in order. -/
theorem tick_storage_error_propagates (s : Store) (evs : List Event) (e : GoError)
    (pre rest : List (Option GoError))
    (hsched : s.failures = pre ++ some e :: rest)
    (hpre : ∀ f ∈ pre, f = none)
    (hcons : (tick s evs).2.1.failures.length ≤ rest.length) :
    (tick s evs).1 = Outcome.returned (some e) ∧ (tick s evs).2.1.failures = rest := by
  cases pre with
  | nil =>
    have hb := Store.byID_cons_some s e rest (by simpa using hsched)
    simp only [tick, hb]
    constructor <;> trivial
  | cons f pre' =>
    have hf : f = none := hpre f (List.mem_cons_self f pre')
    subst hf
    have hb := Store.byID_cons_none s (pre' ++ some e :: rest) (by simpa using hsched)
    simp only [tick, hb] at hcons ⊢
    exact runLoop_first_failure evs _ _ e pre' rest rfl
      (fun f hf => hpre f (by simp [hf])) hcons

/-- Witness for C6: a failure injected on the third storage operation (the
first `Update`) of an uninterrupted run is returned as-is with the schedule
fully consumed. -/
theorem tick_storage_error_propagates_witness :
    (tick { interval := { ID := 1, PlannedDuration := 3 * second, ActualDuration := 0, Category := CategoryPomodoro, State := StateRunning }, failures := [none, none, some GoError.errInvalidID] } (uninterruptedTrace 3)).1
      = Outcome.returned (some GoError.errInvalidID) ∧
    (tick { interval := { ID := 1, PlannedDuration := 3 * second, ActualDuration := 0, Category := CategoryPomodoro, State := StateRunning }, failures := [none, none, some GoError.errInvalidID] } (uninterruptedTrace 3)).2.1.failures = [] :=
  tick_storage_error_propagates _ _ GoError.errInvalidID [none, none] [] rfl
    (by decide) (by decide)

end Pomodoro
